import Mathlib

/-!
Verification development for the Send2Jules VS Code extension
(context-extraction / prompt-assembly pipeline, git sync protocol,
remote session client, and input validators).

JavaScript strings are modelled as lists of characters (`JStr`); the
JavaScript string primitives used by the source (startsWith, includes,
trim, split, substring, toLowerCase) are given explicit executable
definitions over that representation.  Fallible TypeScript functions
(those that `throw`) are modelled as `Except JSError _`.
-/

set_option maxRecDepth 16000

namespace Send2Jules

/-- A JavaScript string, modelled as a list of characters. -/
abbrev JStr := List Char

/-- Embed a Lean string literal as a `JStr`. -/
def jstr (s : String) : JStr := s.data

/-- JS `a.startsWith(b)`. -/
def jsStartsWith (s pre : JStr) : Bool := pre.isPrefixOf s

/-- JS `a.includes(b)` (substring containment). -/
def jsIncludes (s sub : JStr) : Bool :=
  match s with
  | [] => sub.isEmpty
  | _ :: rest => sub.isPrefixOf s || jsIncludes rest sub

/-- JS whitespace test used by `String.prototype.trim`. -/
def jsIsSpace (c : Char) : Bool := c.isWhitespace

/-- JS `s.trim()`. -/
def jsTrim (s : JStr) : JStr :=
  ((s.dropWhile jsIsSpace).reverse.dropWhile jsIsSpace).reverse

/-- JS `s.toLowerCase()` (ASCII case folding suffices for the URLs involved). -/
def jsToLower (s : JStr) : JStr := s.map Char.toLower

/-- The exception universe of the extension: the custom error classes of
`errors.ts` (plus plain `Error`, which several modules still throw). -/
inductive JSError where
  | validationError (message : JStr) (field : Option JStr) (value : Option JStr)
  | securityError (message : JStr) (violationType : Option JStr)
  | apiError (message : JStr) (statusCode : Option Nat)
  | gitError (message : JStr)
  | configurationError (message : JStr) (configKey : Option JStr)
  | projectNotInitializedError (owner repo : JStr)
  | plainError (message : JStr)
deriving DecidableEq, Repr

/-- VALIDATION.GITHUB_ID_MAX_LENGTH. -/
def GITHUB_ID_MAX_LENGTH : Nat := 100

/-- VALIDATION.BRANCH_MAX_LENGTH. -/
def BRANCH_MAX_LENGTH : Nat := 255

/-- VALIDATION.PROMPT_MAX_LENGTH. -/
def PROMPT_MAX_LENGTH : Nat := 50000

/-- VALIDATION.API_KEY_MIN_LENGTH. -/
def API_KEY_MIN_LENGTH : Nat := 20

/-- VALIDATION.API_KEY_MAX_LENGTH. -/
def API_KEY_MAX_LENGTH : Nat := 500

/-- Character class of VALIDATION.GITHUB_ID_PATTERN `[a-zA-Z0-9_.-]`. -/
def isGithubIdChar (c : Char) : Bool :=
  c.isAlphanum || c = '_' || c = '.' || c = '-'

/-- VALIDATION.GITHUB_ID_PATTERN `/^[a-zA-Z0-9_.-]+$/` as a whole-string test. -/
def githubIdPatternTest (s : JStr) : Bool := !s.isEmpty && s.all isGithubIdChar

/-- Character class of VALIDATION.SESSION_ID_PATTERN `[a-zA-Z0-9_-]`. -/
def isSessionIdChar (c : Char) : Bool := c.isAlphanum || c = '_' || c = '-'

/-- VALIDATION.SESSION_ID_PATTERN `/^[a-zA-Z0-9_-]{8,}$/` as a whole-string test. -/
def sessionIdPatternTest (s : JStr) : Bool := 8 ≤ s.length && s.all isSessionIdChar

/-- validators.ts `validateGitHubIdentifier`. -/
def validateGitHubIdentifier (value field : JStr) : Except JSError Unit :=
  if value.isEmpty then
    .error (.validationError (jstr "Invalid " ++ field ++ jstr ": must be a non-empty string")
      (some field) (some value))
  else
    let trimmed := jsTrim value
    if trimmed.length = 0 then
      .error (.validationError (jstr "Invalid " ++ field ++ jstr ": cannot be empty or whitespace only")
        (some field) (some value))
    else if trimmed.length > GITHUB_ID_MAX_LENGTH then
      .error (.validationError (jstr "Invalid " ++ field ++ jstr ": exceeds maximum length")
        (some field) (some value))
    else if jsIncludes trimmed (jstr "..") || jsIncludes trimmed (jstr "/")
        || jsIncludes trimmed (jstr "\\") then
      .error (.securityError (jstr "Invalid " ++ field ++ jstr ": path traversal attempt detected")
        (some (jstr "path_traversal")))
    else if !githubIdPatternTest trimmed then
      .error (.validationError (jstr "Invalid " ++ field ++ jstr ": contains invalid characters")
        (some field) (some value))
    else
      .ok ()

/-- Character class of the branch-name rejection regex `/[\s~^:?*\[\]]/`. -/
def isBadBranchChar (c : Char) : Bool :=
  c.isWhitespace || c = '~' || c = '^' || c = ':' || c = '?' || c = '*' || c = '[' || c = ']'

/-- validators.ts `validateBranchName`. -/
def validateBranchName (branch : JStr) : Except JSError Unit :=
  if branch.isEmpty then
    .error (.validationError (jstr "Invalid branch: must be a non-empty string")
      (some (jstr "branch")) (some branch))
  else
    let trimmed := jsTrim branch
    if trimmed.length = 0 then
      .error (.validationError (jstr "Invalid branch: cannot be empty")
        (some (jstr "branch")) (some branch))
    else if trimmed.length > BRANCH_MAX_LENGTH then
      .error (.validationError (jstr "Invalid branch: exceeds maximum length")
        (some (jstr "branch")) (some branch))
    else if trimmed.any isBadBranchChar then
      .error (.validationError (jstr "Invalid branch: contains invalid characters")
        (some (jstr "branch")) (some branch))
    else if jsStartsWith trimmed (jstr ".") || jsStartsWith trimmed (jstr "/")
        || jsStartsWith trimmed.reverse (jstr ".lock").reverse then
      .error (.validationError (jstr "Invalid branch: cannot start with . or / or end with .lock")
        (some (jstr "branch")) (some branch))
    else
      .ok ()

/-- validators.ts `validatePrompt` (the SECURITY_PATTERNS loop only emits a
console warning and never throws, so it contributes nothing to the result). -/
def validatePrompt (prompt : JStr) : Except JSError Unit :=
  if prompt.isEmpty then
    .error (.validationError (jstr "Prompt must be a non-empty string")
      (some (jstr "prompt")) (some prompt))
  else
    let trimmed := jsTrim prompt
    if trimmed.length = 0 then
      .error (.validationError (jstr "Prompt cannot be empty or whitespace only")
        (some (jstr "prompt")) (some prompt))
    else if trimmed.length > PROMPT_MAX_LENGTH then
      .error (.validationError (jstr "Prompt exceeds maximum length")
        (some (jstr "prompt")) none)
    else
      .ok ()

/-- Character class of the control-character regex `/[\x00-\x1F\x7F]/`. -/
def isControlByte (c : Char) : Bool := c.toNat ≤ 0x1F || c.toNat = 0x7F

/-- validators.ts `validateApiKey`. -/
def validateApiKey (token : JStr) : Except JSError Unit :=
  if token.isEmpty then
    .error (.validationError (jstr "API key must be a non-empty string") (some (jstr "apiKey")) none)
  else
    let trimmed := jsTrim token
    if trimmed.length < API_KEY_MIN_LENGTH then
      .error (.validationError (jstr "API key is too short") (some (jstr "apiKey")) none)
    else if trimmed.length > API_KEY_MAX_LENGTH then
      .error (.validationError (jstr "API key is too long") (some (jstr "apiKey")) none)
    else if trimmed.any isControlByte then
      .error (.validationError (jstr "API key contains invalid control characters")
        (some (jstr "apiKey")) none)
    else
      .ok ()

/-- The `any`-typed argument of `validateSessionResponse`: either not an
object at all, or an object whose `id` / `name` fields may be missing or of
the wrong type (`none`) or present as strings. -/
inductive SessionResponseInput where
  | notObject
  | object (id : Option JStr) (name : Option JStr)
deriving DecidableEq, Repr

/-- validators.ts `validateSessionResponse` (JS falsiness: a missing,
non-string or empty `id`/`name` fails the `!data.id` style checks). -/
def validateSessionResponse (data : SessionResponseInput) : Except JSError Unit :=
  match data with
  | .notObject =>
    .error (.validationError (jstr "Invalid API response: expected object")
      (some (jstr "sessionResponse")) none)
  | .object id name =>
    match id with
    | none =>
      .error (.validationError (jstr "Invalid API response: missing or invalid session ID")
        (some (jstr "sessionResponse")) none)
    | some i =>
      if i.isEmpty then
        .error (.validationError (jstr "Invalid API response: missing or invalid session ID")
          (some (jstr "sessionResponse")) none)
      else
        match name with
        | none =>
          .error (.validationError (jstr "Invalid API response: missing or invalid session name")
            (some (jstr "sessionResponse")) none)
        | some n =>
          if n.isEmpty then
            .error (.validationError (jstr "Invalid API response: missing or invalid session name")
              (some (jstr "sessionResponse")) none)
          else if !sessionIdPatternTest i then
            .error (.validationError (jstr "Invalid API response: malformed session ID format")
              (some (jstr "sessionResponse")) (some i))
          else
            .ok ()

/-- One step of POSIX path normalisation: empty and `.` segments are
dropped, `..` pops the stack (staying at the root when empty), anything
else is pushed. -/
def applyPathSeg (stack : List JStr) (seg : JStr) : List JStr :=
  if seg.isEmpty || seg = jstr "." then stack
  else if seg = jstr ".." then stack.dropLast
  else stack ++ [seg]

/-- Split a string at every occurrence of a separator character
(JS `s.split(sep)` semantics: empty fields are kept). -/
def splitChars (p : Char → Bool) (s : JStr) : List JStr :=
  s.foldr
    (fun c acc =>
      if p c then [] :: acc
      else match acc with
        | h :: t => (c :: h) :: t
        | [] => [[c]])
    [[]]

/-- Node `path.resolve(p)` for POSIX paths: relative paths are resolved
against the current working directory `cwd`, then `.`/`..`/empty segments
are normalised away. -/
def pathResolve (cwd p : JStr) : JStr :=
  let full := if jsStartsWith p (jstr "/") then p else cwd ++ ('/' :: p)
  let stack := (splitChars (fun c => c = '/') full).foldl applyPathSeg []
  match stack with
  | [] => jstr "/"
  | _ => '/' :: List.intercalate (jstr "/") stack

/-- validators.ts `validatePathInBrainDirectory`: resolves both paths and
rejects when the resolved file path does not *start with* the resolved
brain directory (a plain string-prefix check). -/
def validatePathInBrainDirectory (cwd filePath brainDir : JStr) : Except JSError Unit :=
  let resolvedPath := pathResolve cwd filePath
  let resolvedBrainDir := pathResolve cwd brainDir
  if !jsStartsWith resolvedPath resolvedBrainDir then
    .error (.securityError
      (jstr "Path traversal attempt detected: file path is outside the allowed directory")
      (some (jstr "path_traversal")))
  else
    .ok ()

/-- Modelled from the spec: a path "resolves to a descendant of the root"
when its resolved form equals the resolved root or extends it past a `/`
separator. -/
def specIsDescendant (cwd p root : JStr) : Bool :=
  let rp := pathResolve cwd p
  let rr := pathResolve cwd root
  rp = rr || jsStartsWith rp (rr ++ jstr "/")

/-- promptGenerator.ts `findArtifactFiles`, reduced to its security gate:
the function proceeds to read artifact files from `targetDir` exactly when
`validatePathInBrainDirectory(targetDir, resolvedBrainDir)` does not throw
(on a throw it logs and returns `[]` without reading). -/
def findArtifactFilesProceeds (cwd targetDir brainDir : JStr) : Bool :=
  match validatePathInBrainDirectory cwd targetDir (pathResolve cwd brainDir) with
  | .ok _ => true
  | .error _ => false

/-- The dangerous protocol list of validators.ts `validateUrl`. -/
def dangerousProtocols : List JStr :=
  [jstr "javascript:", jstr "data:", jstr "file:", jstr "vbscript:"]

/-- validators.ts `validateUrl`: rejects dangerous schemes, requires an
`http(s)://` literal prefix, then accepts when any allow-listed domain
occurs anywhere in the URL (`url.includes(domain)`). -/
def validateUrl (url : JStr) (allowedDomains : List JStr) : Except JSError Unit :=
  if url.isEmpty then
    .error (.validationError (jstr "URL must be a non-empty string") (some (jstr "url")) none)
  else if dangerousProtocols.any (fun p => jsStartsWith (jsToLower url) p) then
    .error (.securityError (jstr "Dangerous URL protocol detected")
      (some (jstr "dangerous_protocol")))
  else if !(jsStartsWith url (jstr "https://") || jsStartsWith url (jstr "http://")) then
    .error (.validationError (jstr "URL must use HTTP or HTTPS protocol")
      (some (jstr "url")) (some url))
  else if !(allowedDomains.any (fun d => jsIncludes url d)) then
    .error (.securityError (jstr "URL domain is not in the allowed list")
      (some (jstr "untrusted_domain")))
  else
    .ok ()

/-- Modelled from the spec: "the URL's domain" — the host component between
`://` and the following `/` (or the end of the URL). -/
def urlHost (url : JStr) : JStr :=
  urlHostAux url
where
  /-- Scan forward to the first `://`, then take up to the next `/`. -/
  urlHostAux : JStr → JStr
  | [] => []
  | c :: rest =>
    if (jstr "://").isPrefixOf (c :: rest) then ((c :: rest).drop 3).takeWhile (fun d => d ≠ '/')
    else urlHostAux rest

deriving instance DecidableEq for Except

/-- Outcome classifier for the validators module: `true` when the call
returned normally or threw a `ValidationError` or `SecurityError`. -/
def throwsOnlyValidationOrSecurity (r : Except JSError Unit) : Bool :=
  match r with
  | .ok _ => true
  | .error (.validationError _ _ _) => true
  | .error (.securityError _ _) => true
  | .error _ => false

/-- C10: every validator of the validators module either returns normally or
throws a ValidationError or SecurityError; no other exception type escapes
any of the seven validators, for every input. -/
theorem validators_throw_only_validation_or_security
    (value field branch prompt token url cwd filePath brainDir : JStr)
    (data : SessionResponseInput) (allowedDomains : List JStr) :
    throwsOnlyValidationOrSecurity (validateGitHubIdentifier value field) = true ∧
    throwsOnlyValidationOrSecurity (validateBranchName branch) = true ∧
    throwsOnlyValidationOrSecurity (validatePrompt prompt) = true ∧
    throwsOnlyValidationOrSecurity (validateApiKey token) = true ∧
    throwsOnlyValidationOrSecurity (validateSessionResponse data) = true ∧
    throwsOnlyValidationOrSecurity (validatePathInBrainDirectory cwd filePath brainDir) = true ∧
    throwsOnlyValidationOrSecurity (validateUrl url allowedDomains) = true := by
  refine ⟨?_, ?_, ?_, ?_, ?_, ?_, ?_⟩ <;>
    (simp only [validateGitHubIdentifier, validateBranchName, validatePrompt, validateApiKey,
      validateSessionResponse, validatePathInBrainDirectory, validateUrl];
     (repeat' split) <;> rfl)

/-- C3: the path check in `validatePathInBrainDirectory` is a bare string
prefix test on the resolved paths.  The sibling directory
`/home/user/.gemini/antigravity/brain-evil` is *not* a descendant of the
brain root `/home/user/.gemini/antigravity/brain`, yet the validator
accepts a file inside it (no `SecurityError` is thrown) and
`findArtifactFiles` therefore proceeds to read from it, contradicting the
claimed "descendant of the resolved brain root" guarantee. -/
theorem validatePathInBrainDirectory_sibling_prefix_bypass :
    validatePathInBrainDirectory (jstr "/home/user")
      (jstr "/home/user/.gemini/antigravity/brain-evil/task.md")
      (jstr "/home/user/.gemini/antigravity/brain") = .ok () ∧
    specIsDescendant (jstr "/home/user")
      (jstr "/home/user/.gemini/antigravity/brain-evil/task.md")
      (jstr "/home/user/.gemini/antigravity/brain") = false ∧
    findArtifactFilesProceeds (jstr "/home/user")
      (jstr "/home/user/.gemini/antigravity/brain-evil")
      (jstr "/home/user/.gemini/antigravity/brain") = true := by
  decide

/-- C7: the allow-list check in `validateUrl` is `url.includes(domain)` over
the whole URL string, not a check of the URL's domain.  The URL
`https://evil.com/jules.google.com` has domain `evil.com`, which is not on
the allow-list `["jules.google.com"]`, yet `validateUrl` returns normally
because the allow-listed domain occurs in the path, contradicting the
claimed "domain is on the allow-list" guarantee. -/
theorem validateUrl_substring_domain_bypass :
    validateUrl (jstr "https://evil.com/jules.google.com") [jstr "jules.google.com"] = .ok () ∧
    urlHost (jstr "https://evil.com/jules.google.com") = jstr "evil.com" ∧
    List.contains [jstr "jules.google.com"] (urlHost (jstr "https://evil.com/jules.google.com"))
      = false := by
  decide

/-- A session object returned by the Jules API (`JulesSession`). -/
structure JulesSessionR where
  name : JStr
  id : JStr
deriving DecidableEq, Repr

/-- An HTTP response as observed by `createSession`: status code and text body. -/
structure HttpResponse where
  status : Nat
  body : JStr
deriving DecidableEq, Repr

/-- JS `Response.ok`: status in the range 200–299. -/
def responseOk (r : HttpResponse) : Bool := 200 ≤ r.status && r.status ≤ 299

/-- JS falsiness of `string | undefined` (undefined and the empty string are falsy). -/
def strFalsy : Option JStr → Bool
  | none => true
  | some s => s.isEmpty

/-- The request payload built by `createSession`. -/
structure SessionPayload where
  prompt : JStr
  source : JStr
  startingBranch : JStr
deriving DecidableEq, Repr

/-- Outcome of one `createSession` call: whether the network request was
issued, the payload that was (or would have been) sent, and the result. -/
structure CreateSessionOutcome where
  fetched : Bool
  payload : SessionPayload
  result : Except JSError JulesSessionR
deriving DecidableEq, Repr

/-- The marker string distinguishing the "repository not registered" 404. -/
def notFoundMarker : JStr := jstr "Requested entity was not found"

/-- Error-message text `API Error ${response.status}: ${errorText}`. -/
def apiErrorMessage (r : HttpResponse) : JStr :=
  jstr "API Error " ++ (toString r.status).data ++ jstr ": " ++ r.body

/-- julesClient.ts `createSession`.  The calls to the secret store and to
`fetch` are external: `storedKey` is what `secrets.getKey()` returns,
`promptedKey` what `secrets.promptAndStoreKey()` would return, `response`
what `fetch` would answer, and `okSession` what `response.json()` would
parse to on a 2xx response. -/
def createSession (storedKey promptedKey : Option JStr) (owner repo branch prompt : JStr)
    (response : HttpResponse) (okSession : JulesSessionR) : CreateSessionOutcome :=
  let payload : SessionPayload :=
    ⟨prompt, jstr "sources/github/" ++ owner ++ jstr "/" ++ repo, branch⟩
  if strFalsy storedKey && strFalsy promptedKey then
    ⟨false, payload, .error (.plainError (jstr "API Key required."))⟩
  else if !responseOk response then
    if response.status = 404 then
      if jsIncludes response.body notFoundMarker then
        ⟨true, payload, .error (.projectNotInitializedError owner repo)⟩
      else
        ⟨true, payload, .error (.plainError (apiErrorMessage response))⟩
    else
      ⟨true, payload, .error (.plainError (apiErrorMessage response))⟩
  else
    ⟨true, payload, .ok okSession⟩

/-- C5: with an API key available, `createSession` throws
`ProjectNotInitializedError` exactly when the response status is 404 and
the body contains "Requested entity was not found"; every other non-2xx
response yields the generic error carrying the status code and body, and a
2xx response yields neither error. -/
theorem createSession_404_distinguished (storedKey promptedKey : Option JStr)
    (owner repo branch prompt : JStr) (response : HttpResponse) (okSession : JulesSessionR)
    (hkey : strFalsy storedKey = false) :
    ((createSession storedKey promptedKey owner repo branch prompt response okSession).result
        = .error (.projectNotInitializedError owner repo)
      ↔ response.status = 404 ∧ jsIncludes response.body notFoundMarker = true) ∧
    (responseOk response = false →
      ¬(response.status = 404 ∧ jsIncludes response.body notFoundMarker = true) →
      (createSession storedKey promptedKey owner repo branch prompt response okSession).result
        = .error (.plainError (apiErrorMessage response))) ∧
    (responseOk response = true →
      (createSession storedKey promptedKey owner repo branch prompt response okSession).result
        = .ok okSession) := by
  have h404 : response.status = 404 → responseOk response = false := by
    intro h
    simp [responseOk, h]
  unfold createSession
  simp only [hkey, Bool.false_and, Bool.false_eq_true, if_false]
  refine ⟨?_, ?_, ?_⟩
  · constructor
    · intro h
      by_cases hok : responseOk response
      · simp [hok] at h
      · simp [hok] at h
        by_cases h4 : response.status = 404
        · simp [h4] at h
          by_cases hm : jsIncludes response.body notFoundMarker
          · exact ⟨h4, hm⟩
          · simp [hm] at h
        · simp [h4] at h
    · rintro ⟨h4, hm⟩
      simp [h404 h4, h4, hm]
  · intro hok hnot
    by_cases h4 : response.status = 404
    · by_cases hm : jsIncludes response.body notFoundMarker
      · exact absurd ⟨h4, hm⟩ hnot
      · simp [hok, h4, hm]
    · simp [hok, h4]
  · intro hok
    simp [hok]

/-- Witness for `createSession_404_distinguished` at a concrete 404
response carrying the not-found marker. -/
theorem createSession_404_distinguished_witness :
    strFalsy (some (jstr "a-valid-api-key-here")) = false ∧
    ((createSession (some (jstr "a-valid-api-key-here")) none (jstr "google") (jstr "jules")
        (jstr "main") (jstr "do it") ⟨404, jstr "Requested entity was not found."⟩
        ⟨jstr "s", jstr "id"⟩).result
      = .error (.projectNotInitializedError (jstr "google") (jstr "jules"))
      ↔ (404 = 404 ∧
        jsIncludes (jstr "Requested entity was not found.") notFoundMarker = true)) := by
  refine ⟨by decide, ?_⟩
  exact (createSession_404_distinguished (some (jstr "a-valid-api-key-here")) none (jstr "google")
    (jstr "jules") (jstr "main") (jstr "do it") ⟨404, jstr "Requested entity was not found."⟩
    ⟨jstr "s", jstr "id"⟩ (by decide)).1

/-- C9 (amended): when no API key is stored and none is supplied at the
prompt, `createSession` fails *before any network request* with the plain
`Error("API Key required.")` thrown by julesClient.ts (not with a
`ConfigurationError`, which is never thrown anywhere in the codebase). -/
theorem createSession_missing_key_plain_error (storedKey promptedKey : Option JStr)
    (owner repo branch prompt : JStr) (response : HttpResponse) (okSession : JulesSessionR)
    (h1 : strFalsy storedKey = true) (h2 : strFalsy promptedKey = true) :
    (createSession storedKey promptedKey owner repo branch prompt response okSession).fetched
      = false ∧
    (createSession storedKey promptedKey owner repo branch prompt response okSession).result
      = .error (.plainError (jstr "API Key required.")) := by
  unfold createSession
  simp [h1, h2]

/-- Witness for `createSession_missing_key_plain_error` with no stored key
and a declined prompt. -/
theorem createSession_missing_key_plain_error_witness :
    strFalsy (none : Option JStr) = true ∧
    (createSession none none (jstr "google") (jstr "jules") (jstr "main") (jstr "p")
      ⟨200, jstr ""⟩ ⟨jstr "s", jstr "id"⟩).fetched = false ∧
    (createSession none none (jstr "google") (jstr "jules") (jstr "main") (jstr "p")
      ⟨200, jstr ""⟩ ⟨jstr "s", jstr "id"⟩).result
      = .error (.plainError (jstr "API Key required.")) := by
  refine ⟨by decide, ?_, ?_⟩
  · exact (createSession_missing_key_plain_error none none (jstr "google") (jstr "jules")
      (jstr "main") (jstr "p") ⟨200, jstr ""⟩ ⟨jstr "s", jstr "id"⟩ (by decide) (by decide)).1
  · exact (createSession_missing_key_plain_error none none (jstr "google") (jstr "jules")
      (jstr "main") (jstr "p") ⟨200, jstr ""⟩ ⟨jstr "s", jstr "id"⟩ (by decide) (by decide)).2

/-- Classifier: does a `createSession` outcome carry a `ConfigurationError`? -/
def resultIsConfigurationError (o : CreateSessionOutcome) : Bool :=
  match o.result with
  | .error (.configurationError _ _) => true
  | _ => false

/-- C9 counterexample: with no credential stored and none supplied when
prompted, `createSession` fails with the plain `Error("API Key required.")`
of julesClient.ts, which is *not* the distinguished `ConfigurationError`
that the claim requires (no network request is made, though — that part of
the claim holds). -/
theorem createSession_missing_key_not_configuration_error :
    (createSession none none (jstr "google") (jstr "jules") (jstr "main") (jstr "fix the bug")
      ⟨200, jstr "{}"⟩ ⟨jstr "sessions/abc", jstr "abcdefgh"⟩).result
      = .error (.plainError (jstr "API Key required.")) ∧
    resultIsConfigurationError
      (createSession none none (jstr "google") (jstr "jules") (jstr "main") (jstr "fix the bug")
        ⟨200, jstr "{}"⟩ ⟨jstr "sessions/abc", jstr "abcdefgh"⟩) = false ∧
    (createSession none none (jstr "google") (jstr "jules") (jstr "main") (jstr "fix the bug")
      ⟨200, jstr "{}"⟩ ⟨jstr "sessions/abc", jstr "abcdefgh"⟩).fetched = false := by
  decide

/-- Character class `\w` of the parseGithubUrl regex. -/
def isWordChar (c : Char) : Bool := c.isAlphanum || c = '_'

/-- Character class `[\w\.@]` (the host part of the parseGithubUrl regex). -/
def isHostChar (c : Char) : Bool := isWordChar c || c = '.' || c = '@'

/-- Character class `[\w-]` (the owner/repo capture groups of the
parseGithubUrl regex).  Note: it does NOT contain `.`. -/
def isIdentChar (c : Char) : Bool := isWordChar c || c = '-'

/-- Attempt the body of the parseGithubUrl regex
`(?:[\w\.@]+)[\/:]([\w-]+)\/([\w-]+)(?:\.git)?` right after a matched
scheme.  Because `/` and `:` are outside `[\w\.@]`, and `/` is outside
`[\w-]`, the greedy `+` repetitions are deterministic (no backtracking can
succeed where the maximal munch fails), and the trailing optional `\.git`
never changes the captured groups. -/
def matchAfterScheme (s : JStr) : Option (JStr × JStr) :=
  let host := s.takeWhile isHostChar
  let rest := s.dropWhile isHostChar
  if host.isEmpty then none
  else
    match rest with
    | [] => none
    | c :: rest2 =>
      if c = '/' || c = ':' then
        let owner := rest2.takeWhile isIdentChar
        let rest3 := rest2.dropWhile isIdentChar
        if owner.isEmpty then none
        else
          match rest3 with
          | '/' :: rest4 =>
            let repo := rest4.takeWhile isIdentChar
            if repo.isEmpty then none else some (owner, repo)
          | _ => none
      else none

/-- Attempt the parseGithubUrl regex at one position: alternation
`(?:git@|https:\/\/)` followed by the rest of the pattern. -/
def matchSchemeAt (s : JStr) : Option (JStr × JStr) :=
  if jsStartsWith s (jstr "git@") then matchAfterScheme (s.drop 4)
  else if jsStartsWith s (jstr "https://") then matchAfterScheme (s.drop 8)
  else none

/-- Leftmost unanchored match of the parseGithubUrl regex (JS
`url.match(regex)` semantics): try each start position left to right. -/
def matchGithubUrl : JStr → Option (JStr × JStr)
  | [] => none
  | c :: rest =>
    match matchSchemeAt (c :: rest) with
    | some r => some r
    | none => matchGithubUrl rest

/-- gitContext.ts `parseGithubUrl`: regex match, throwing when the URL does
not match; returns the two capture groups as `{ owner, name }`. -/
def parseGithubUrl (url : JStr) : Except JSError (JStr × JStr) :=
  match matchGithubUrl url with
  | some r => .ok r
  | none => .error (.plainError (jstr "Could not parse Git Remote URL: " ++ url))

theorem takeWhile_append_stop (p : Char → Bool) :
    ∀ (a : JStr), a.all p = true → ∀ (c : Char), p c = false → ∀ (b : JStr),
      (a ++ c :: b).takeWhile p = a := by
  intro a
  induction a with
  | nil =>
    intro _ c hc b
    simp [List.takeWhile_cons, hc]
  | cons x xs ih =>
    intro ha c hc b
    rw [List.all_cons, Bool.and_eq_true] at ha
    simp [List.takeWhile_cons, ha.1, ih ha.2 c hc b]

theorem dropWhile_append_stop (p : Char → Bool) :
    ∀ (a : JStr), a.all p = true → ∀ (c : Char), p c = false → ∀ (b : JStr),
      (a ++ c :: b).dropWhile p = c :: b := by
  intro a
  induction a with
  | nil =>
    intro _ c hc b
    simp [List.dropWhile_cons, hc]
  | cons x xs ih =>
    intro ha c hc b
    rw [List.all_cons, Bool.and_eq_true] at ha
    simp [List.dropWhile_cons, ha.1, ih ha.2 c hc b]

theorem takeWhile_all (p : Char → Bool) :
    ∀ (a : JStr), a.all p = true → a.takeWhile p = a := by
  intro a
  induction a with
  | nil => intro _; rfl
  | cons x xs ih =>
    intro ha
    rw [List.all_cons, Bool.and_eq_true] at ha
    simp [List.takeWhile_cons, ha.1, ih ha.2]

/-- Evaluation of the post-scheme regex body on a well-formed
`host sep owner / repo tail` decomposition, where `tail` is any suffix that
does not extend the repo capture group (e.g. `""` or `".git"`). -/
theorem matchAfterScheme_eval (host owner repo tail : JStr) (sep : Char)
    (hh : host.all isHostChar = true) (hh0 : host ≠ [])
    (hsep1 : isHostChar sep = false) (hsep2 : (sep = '/' || sep = ':') = true)
    (ho : owner.all isIdentChar = true) (ho0 : owner ≠ [])
    (hr0 : repo ≠ [])
    (ht : (repo ++ tail).takeWhile isIdentChar = repo) :
    matchAfterScheme (host ++ sep :: (owner ++ '/' :: (repo ++ tail))) = some (owner, repo) := by
  unfold matchAfterScheme
  rw [takeWhile_append_stop isHostChar host hh sep hsep1,
    dropWhile_append_stop isHostChar host hh sep hsep1]
  simp only [List.isEmpty_eq_true, hh0, if_false, hsep2, if_true]
  rw [takeWhile_append_stop isIdentChar owner ho '/' (by decide),
    dropWhile_append_stop isIdentChar owner ho '/' (by decide)]
  simp only [List.isEmpty_eq_true, ho0, if_false, ht]
  simp [hr0]

/-- A successful match of the regex body right after `git@` at position 0
is the overall leftmost match. -/
theorem matchGithubUrl_ssh (rest : JStr) (r : JStr × JStr)
    (h : matchAfterScheme rest = some r) :
    matchGithubUrl (jstr "git@" ++ rest) = some r := by
  have h1 : jstr "git@" ++ rest = 'g' :: 'i' :: 't' :: '@' :: rest := rfl
  rw [h1]
  have h2 : matchSchemeAt ('g' :: 'i' :: 't' :: '@' :: rest) = matchAfterScheme rest := by
    unfold matchSchemeAt
    have h3 : jsStartsWith ('g' :: 'i' :: 't' :: '@' :: rest) (jstr "git@") = true := by
      have h4 : jstr "git@" = ['g', 'i', 't', '@'] := rfl
      simp [jsStartsWith, h4, List.isPrefixOf]
    simp [h3]
  rw [matchGithubUrl, h2, h]

/-- A successful match of the regex body right after `https://` at
position 0 is the overall leftmost match. -/
theorem matchGithubUrl_https (rest : JStr) (r : JStr × JStr)
    (h : matchAfterScheme rest = some r) :
    matchGithubUrl (jstr "https://" ++ rest) = some r := by
  have h1 : jstr "https://" ++ rest = 'h' :: 't' :: 't' :: 'p' :: 's' :: ':' :: '/' :: '/' :: rest := rfl
  rw [h1]
  have h2 : matchSchemeAt ('h' :: 't' :: 't' :: 'p' :: 's' :: ':' :: '/' :: '/' :: rest)
      = matchAfterScheme rest := by
    unfold matchSchemeAt
    have h3 : jsStartsWith ('h' :: 't' :: 't' :: 'p' :: 's' :: ':' :: '/' :: '/' :: rest)
        (jstr "git@") = false := by
      have h4 : jstr "git@" = ['g', 'i', 't', '@'] := rfl
      simp [jsStartsWith, h4, List.isPrefixOf]
    have h5 : jsStartsWith ('h' :: 't' :: 't' :: 'p' :: 's' :: ':' :: '/' :: '/' :: rest)
        (jstr "https://") = true := by
      have h6 : jstr "https://" = ['h', 't', 't', 'p', 's', ':', '/', '/'] := rfl
      simp [jsStartsWith, h6, List.isPrefixOf]
    simp [h3, h5]
  rw [matchGithubUrl, h2, h]

/-- C4 (amended): for every host matching `[\w.@]+` and every owner and
repo matching `[A-Za-z0-9_-]+` — the regex's actual capture class, which
does NOT include the dot of the full GitHub identifier class —
`parseGithubUrl` maps both `git@{host}:{owner}/{repo}` and
`https://{host}/{owner}/{repo}` to exactly `{owner, repo}`, with or
without a trailing `.git`. -/
theorem parseGithubUrl_roundtrip_no_dot (host owner repo : JStr)
    (hh : host.all isHostChar = true) (hh0 : host ≠ [])
    (ho : owner.all isIdentChar = true) (ho0 : owner ≠ [])
    (hr : repo.all isIdentChar = true) (hr0 : repo ≠ []) :
    parseGithubUrl (jstr "git@" ++ (host ++ ':' :: (owner ++ '/' :: (repo ++ jstr ".git"))))
      = .ok (owner, repo) ∧
    parseGithubUrl (jstr "git@" ++ (host ++ ':' :: (owner ++ '/' :: (repo ++ jstr ""))))
      = .ok (owner, repo) ∧
    parseGithubUrl (jstr "https://" ++ (host ++ '/' :: (owner ++ '/' :: (repo ++ jstr ".git"))))
      = .ok (owner, repo) ∧
    parseGithubUrl (jstr "https://" ++ (host ++ '/' :: (owner ++ '/' :: (repo ++ jstr ""))))
      = .ok (owner, repo) := by
  have hgit : (repo ++ jstr ".git").takeWhile isIdentChar = repo := by
    have : jstr ".git" = '.' :: jstr "git" := rfl
    rw [this]
    exact takeWhile_append_stop isIdentChar repo hr '.' (by decide) (jstr "git")
  have hnil : (repo ++ jstr "").takeWhile isIdentChar = repo := by
    have : repo ++ jstr "" = repo := by simp [jstr]
    rw [this]
    exact takeWhile_all isIdentChar repo hr
  refine ⟨?_, ?_, ?_, ?_⟩
  · unfold parseGithubUrl
    rw [matchGithubUrl_ssh _ _
      (matchAfterScheme_eval host owner repo (jstr ".git") ':' hh hh0 (by decide) (by decide)
        ho ho0 hr0 hgit)]
  · unfold parseGithubUrl
    rw [matchGithubUrl_ssh _ _
      (matchAfterScheme_eval host owner repo (jstr "") ':' hh hh0 (by decide) (by decide)
        ho ho0 hr0 hnil)]
  · unfold parseGithubUrl
    rw [matchGithubUrl_https _ _
      (matchAfterScheme_eval host owner repo (jstr ".git") '/' hh hh0 (by decide) (by decide)
        ho ho0 hr0 hgit)]
  · unfold parseGithubUrl
    rw [matchGithubUrl_https _ _
      (matchAfterScheme_eval host owner repo (jstr "") '/' hh hh0 (by decide) (by decide)
        ho ho0 hr0 hnil)]

/-- Witness for `parseGithubUrl_roundtrip_no_dot` on
`git@github.com:google/jules(.git)` and `https://github.com/google/jules(.git)`. -/
theorem parseGithubUrl_roundtrip_no_dot_witness :
    (jstr "github.com").all isHostChar = true ∧
    (jstr "google").all isIdentChar = true ∧
    (jstr "jules").all isIdentChar = true ∧
    parseGithubUrl (jstr "git@" ++ (jstr "github.com" ++ ':' ::
        (jstr "google" ++ '/' :: (jstr "jules" ++ jstr ".git"))))
      = .ok (jstr "google", jstr "jules") := by
  refine ⟨by decide, by decide, by decide, ?_⟩
  exact (parseGithubUrl_roundtrip_no_dot (jstr "github.com") (jstr "google") (jstr "jules")
    (by decide) (by decide) (by decide) (by decide) (by decide) (by decide)).1

/-- C4 counterexample: the claim extends the round-trip to the full GitHub
identifier class including `.`, but the capture groups of the regex are
`[\w-]+`, which stop at a dot.  For owner `google` and repo `a.b` (both in
the claimed identifier class), `git@github.com:google/a.b.git` parses to
`{google, a}`, not `{google, a.b}`; and for owner `my.owner` the parse
fails outright instead of returning `{my.owner, repo}`. -/
theorem parseGithubUrl_dot_counterexample :
    parseGithubUrl (jstr "git@github.com:google/a.b.git") = .ok (jstr "google", jstr "a") ∧
    (jstr "a") ≠ (jstr "a.b") ∧
    parseGithubUrl (jstr "git@github.com:my.owner/repo.git")
      = .error (.plainError (jstr "Could not parse Git Remote URL: git@github.com:my.owner/repo.git")) := by
  decide

/-- One git operation issued by `pushWipChanges` through the VS Code git API. -/
inductive GitOp where
  | add (uris : List JStr)
  | commit (message : JStr)
  | createBranch (name : JStr) (checkout : Bool)
  | push (remoteName branchName : JStr) (setUpstream : Bool)
deriving DecidableEq, Repr

/-- The slice of repository state read by `pushWipChanges`: the change
lists (identified by their file URIs) and the configured remote names. -/
structure GitRepoState where
  workingTreeChanges : List JStr
  indexChanges : List JStr
  remoteNames : List JStr
deriving DecidableEq, Repr

/-- Replace `:` and `.` by `-` (GIT_CONFIG branch-name sanitisation of the
ISO timestamp, `timestamp.replace(/[:.]/g, '-')`). -/
def branchSafe (ts : JStr) : JStr :=
  ts.map (fun c => if c = ':' || c = '.' then '-' else c)

/-- gitContext (part_007) `pushWipChanges`, as the sequence of git
operations it performs.  `timestamp` stands for `new Date().toISOString()`;
`batchAddOk` tells whether the external batch `repo.add([])` call succeeds
(on failure the per-file fallback runs, and a file whose individual staging
fails — `addFileOk` false — aborts with the underlying error). -/
def pushWipChanges (timestamp : JStr) (batchAddOk : Bool) (addFileOk : JStr → Bool)
    (st : GitRepoState) : List GitOp × Except JSError Unit :=
  if st.workingTreeChanges.length > 0 then
    let staging : List GitOp × Except JSError Unit :=
      if batchAddOk then ([.add []], .ok ())
      else stageIndividually st.workingTreeChanges addFileOk
    match staging with
    | (ops, .error e) => (ops, .error e)
    | (ops, .ok ()) => (ops ++ commitAndPush timestamp st, .ok ())
  else if st.indexChanges.length = 0 then
    ([], .ok ())
  else
    (commitAndPush timestamp st, .ok ())
where
  /-- The per-file staging fallback loop. -/
  stageIndividually : List JStr → (JStr → Bool) → List GitOp × Except JSError Unit
  | [], _ => ([], .ok ())
  | uri :: rest, ok =>
    if ok uri then
      match stageIndividually rest ok with
      | (ops, r) => (.add [uri] :: ops, r)
    else ([], .error (.plainError (jstr "Failed to stage " ++ uri)))
  /-- The commit / createBranch / push tail of the function. -/
  commitAndPush (timestamp : JStr) (st : GitRepoState) : List GitOp :=
    let message := jstr "WIP: Auto-save for Jules Handover [" ++ timestamp ++ jstr "]"
    let remoteName := st.remoteNames.headD (jstr "origin")
    let newBranchName := jstr "wip-jules-" ++ branchSafe timestamp
    [.commit message, .createBranch newBranchName true, .push remoteName newBranchName true]

/-- C8: with zero working-tree changes and zero staged changes,
`pushWipChanges` is a no-op that returns without error — it performs no
git operation at all (no staging, no commit, no branch creation, no push),
so the repository state is untouched. -/
theorem pushWipChanges_noop_when_clean (timestamp : JStr) (batchAddOk : Bool)
    (addFileOk : JStr → Bool) (st : GitRepoState)
    (h1 : st.workingTreeChanges = []) (h2 : st.indexChanges = []) :
    pushWipChanges timestamp batchAddOk addFileOk st = ([], .ok ()) := by
  unfold pushWipChanges
  simp [h1, h2]

/-- Witness for `pushWipChanges_noop_when_clean` on a concrete clean
repository. -/
theorem pushWipChanges_noop_when_clean_witness :
    ([] : List JStr) = [] ∧
    pushWipChanges (jstr "2024-01-15T10:30:45.123Z") true (fun _ => true)
      ⟨[], [], [jstr "origin"]⟩ = ([], .ok ()) := by
  exact ⟨rfl, pushWipChanges_noop_when_clean (jstr "2024-01-15T10:30:45.123Z") true
    (fun _ => true) ⟨[], [], [jstr "origin"]⟩ rfl rfl⟩

/-- A vscode.Position: zero-based line and character. -/
structure EditorPos where
  line : Nat
  character : Nat
deriving DecidableEq, Repr

/-- vscode `Position.isBeforeOrEqual`. -/
def posLe (a b : EditorPos) : Bool :=
  a.line < b.line || (a.line = b.line && a.character ≤ b.character)

/-- A vscode.Range: start and end positions. -/
structure EditorRange where
  start : EditorPos
  stop : EditorPos
deriving DecidableEq, Repr

/-- vscode `Range.contains(position)`: start ≤ position ≤ end. -/
def rangeContains (r : EditorRange) (p : EditorPos) : Bool :=
  posLe r.start p && posLe p r.stop

/-- The vscode.SymbolKind values used by the symbol locator (the numeric
enum, carried here by name). -/
inductive SymbolKind where
  | File | Module | Namespace | Package | Class | Method | Property | Field
  | Constructor | Enum | Interface | Function | Variable | Constant
deriving DecidableEq, Repr

/-- JS `vscode.SymbolKind[symbol.kind]`: the name of the enum member. -/
def symbolKindName : SymbolKind → JStr
  | .File => jstr "File"
  | .Module => jstr "Module"
  | .Namespace => jstr "Namespace"
  | .Package => jstr "Package"
  | .Class => jstr "Class"
  | .Method => jstr "Method"
  | .Property => jstr "Property"
  | .Field => jstr "Field"
  | .Constructor => jstr "Constructor"
  | .Enum => jstr "Enum"
  | .Interface => jstr "Interface"
  | .Function => jstr "Function"
  | .Variable => jstr "Variable"
  | .Constant => jstr "Constant"

/-- A vscode.DocumentSymbol: kind, name, range and child symbols. -/
inductive DocumentSymbol where
  | node (kind : SymbolKind) (name : JStr) (range : EditorRange)
      (children : List DocumentSymbol)

/-- promptGenerator.ts `findDeepestSymbol`: walk the symbol list, take the
first symbol whose range contains the position, extend the breadcrumb
chain, recurse into its children for a more specific match, and return the
chain joined with " > "; `none` when no symbol contains the position. -/
def findDeepestSymbol (symbols : List DocumentSymbol) (position : EditorPos)
    (parentChain : List JStr) : Option JStr :=
  match symbols with
  | [] => none
  | .node kind name range children :: rest =>
    if rangeContains range position then
      let currentChain := parentChain ++ [symbolKindName kind ++ jstr ": " ++ name]
      if 0 < children.length then
        match findDeepestSymbol children position currentChain with
        | some childResult => some childResult
        | none => some (List.intercalate (jstr " > ") currentChain)
      else
        some (List.intercalate (jstr " > ") currentChain)
    else
      findDeepestSymbol rest position parentChain

/-- Modelled from the spec: the breadcrumb as a list of "{Kind}: {Name}"
segments, built by descending to the first containing symbol at each level. -/
def specBreadcrumb (symbols : List DocumentSymbol) (p : EditorPos) :
    Option (List JStr) :=
  match symbols with
  | [] => none
  | .node kind name range children :: rest =>
    if rangeContains range p then
      some ((symbolKindName kind ++ jstr ": " ++ name) :: (specBreadcrumb children p).getD [])
    else
      specBreadcrumb rest p

/-- Modelled from the spec: `findEnclosingSymbol` returns the breadcrumb
segments, outermost to innermost, joined with " > ", or null. -/
def findEnclosingSymbolSpec (symbols : List DocumentSymbol) (p : EditorPos) : Option JStr :=
  (specBreadcrumb symbols p).map (fun chain => List.intercalate (jstr " > ") chain)

theorem findDeepestSymbol_eq_spec_aux (symbols : List DocumentSymbol) (p : EditorPos)
    (parentChain : List JStr) :
    findDeepestSymbol symbols p parentChain
      = (specBreadcrumb symbols p).map
          (fun chain => List.intercalate (jstr " > ") (parentChain ++ chain)) := by
  induction symbols, p, parentChain using findDeepestSymbol.induct with
  | case1 p parentChain =>
    rw [findDeepestSymbol, specBreadcrumb]
    rfl
  | case2 p parentChain kind name range children rest hin cur hlen childResult hchild ih =>
    rw [findDeepestSymbol, specBreadcrumb]
    simp only [hin, if_true, hlen, hchild]
    match hsb : specBreadcrumb children p with
    | none =>
      rw [hsb] at ih
      simp at ih
      simp [ih] at hchild
    | some bc =>
      rw [hsb, hchild] at ih
      simp at ih
      have hcur : cur = parentChain ++ [symbolKindName kind ++ jstr ": " ++ name] := rfl
      rw [ih, hcur]
      simp [List.append_assoc]
  | case3 p parentChain kind name range children rest hin cur hlen hchild ih =>
    rw [findDeepestSymbol, specBreadcrumb]
    simp only [hin, if_true, hlen, hchild]
    match hsb : specBreadcrumb children p with
    | some bc =>
      rw [hsb, hchild] at ih
      simp at ih
    | none =>
      simp
  | case4 p parentChain kind name range children rest hin hlen =>
    have hch : children = [] := by
      cases children with
      | nil => rfl
      | cons a l => exact absurd (by simp) hlen
    subst hch
    rw [findDeepestSymbol, specBreadcrumb]
    simp only [hin, if_true, hlen, if_false]
    rw [specBreadcrumb]
    simp
  | case5 p parentChain kind name range children rest hin ih =>
    rw [findDeepestSymbol, specBreadcrumb]
    simp only [hin, if_false]
    exact ih

/-- C6: the symbol locator descends by taking, at each level, the first
symbol whose range contains the position, recursing into its children for
a more specific match, and returns the breadcrumb of "{Kind}: {Name}"
segments joined by " > " ordered outermost to innermost, or null when no
symbol contains the position (proved as equivalence with
`findEnclosingSymbolSpec`, the direct transcription of the spec); in
particular a cursor inside method `validateSession` nested in class
`UserManager` yields "Class: UserManager > Method: validateSession". -/
theorem findDeepestSymbol_spec_correct :
    (∀ (symbols : List DocumentSymbol) (p : EditorPos),
      findDeepestSymbol symbols p [] = findEnclosingSymbolSpec symbols p) ∧
    findDeepestSymbol
      [.node .Class (jstr "UserManager") ⟨⟨0, 0⟩, ⟨10, 0⟩⟩
        [.node .Method (jstr "validateSession") ⟨⟨1, 0⟩, ⟨5, 0⟩⟩ []]]
      ⟨2, 4⟩ []
      = some (jstr "Class: UserManager > Method: validateSession") := by
  constructor
  · intro symbols p
    rw [findDeepestSymbol_eq_spec_aux, findEnclosingSymbolSpec]
    simp
  · simp only [findDeepestSymbol]
    norm_num [rangeContains, posLe, symbolKindName]
    decide

/-- The prefix of a JS `s.split(sep)[0]` for a non-empty separator: the
text before the first occurrence of `sep` (the whole string when `sep`
does not occur). -/
def splitHeadOn (sep : JStr) : JStr → JStr
  | [] => []
  | c :: rest =>
    if sep.isPrefixOf (c :: rest) then []
    else c :: splitHeadOn sep rest

/-- promptGenerator.ts `getFileName`: `uri.fsPath.split(/[\\/]/)` last element. -/
def getFileName (fsPath : JStr) : JStr :=
  (splitChars (fun c => c = '\\' || c = '/') fsPath).getLastD []

/-- Decimal rendering of a Nat as a JS string (for `cursorLine + 1`). -/
def natToJStr (n : Nat) : JStr := (toString n).data

/-- The active editor data read by `assemblePrompt`: the document URI's
filesystem path, the zero-based cursor line, and the document text. -/
structure ActiveEditor where
  uriFsPath : JStr
  cursorLine : Nat
  content : JStr

/-- JS truthiness of a `string | null` value (null and "" are falsy). -/
def optTruthy : Option JStr → Bool
  | none => false
  | some s => !s.isEmpty

/-- The fixed instruction text of `assemblePrompt`. -/
def promptInstruction : JStr :=
  jstr "You are an expert software engineer. Analyze the workspace context and complete the mission brief."

/-- The mission-brief placeholder of `assemblePrompt`. -/
def missionBriefPlaceholder : JStr := jstr "[Describe your task here...]"

/-- `baseStart` of `assemblePrompt`. -/
def promptBaseStart : JStr :=
  jstr "<instruction>" ++ promptInstruction ++ jstr "</instruction>\n<workspace_context>\n"

/-- `baseEnd` of `assemblePrompt`. -/
def promptBaseEnd : JStr :=
  jstr "</workspace_context>\n<mission_brief>" ++ missionBriefPlaceholder ++ jstr "</mission_brief>"

/-- The remaining budget after the fixed overhead:
`maxLen - (baseStart.length + baseEnd.length)` with
`maxLen = VALIDATION.PROMPT_MAX_LENGTH`. -/
def initialBudget : Int :=
  (PROMPT_MAX_LENGTH : Int) - ((promptBaseStart.length : Int) + (promptBaseEnd.length : Int))

/-- The `activeFileStr` section of `assemblePrompt` ("" when there is no
active editor); `\n\n` separates the File/Cursor/Context header from the
file content. -/
def activeFileSection (symbols : Option JStr) (activeEditor : Option ActiveEditor) : JStr :=
  match activeEditor with
  | none => []
  | some ed =>
    let fileName := getFileName ed.uriFsPath
    let cursorLine := ed.cursorLine + 1
    let headerStr := jstr "File: " ++ fileName ++ jstr "\nCursor Line: " ++ natToJStr cursorLine
    let headerStr :=
      if optTruthy symbols then headerStr ++ jstr "\nContext: " ++ symbols.getD []
      else headerStr
    let contextStr := headerStr ++ jstr "\n\n" ++ ed.content
    jstr "<active_file>\n" ++ contextStr ++ jstr "\n</active_file>\n"

/-- The `activeErrorsStr` section of `assemblePrompt`. -/
def activeErrorsSection (errors : Option JStr) : JStr :=
  if optTruthy errors then jstr "<active_errors>\n" ++ errors.getD [] ++ jstr "\n</active_errors>\n"
  else []

/-- The `gitDiffStr` section of `assemblePrompt`. -/
def gitDiffSection (diff : JStr) : JStr :=
  if !diff.isEmpty then jstr "<git_diff>\n" ++ diff ++ jstr "\n</git_diff>\n"
  else []

/-- The `artifactsStr` section of `assemblePrompt`. -/
def artifactsSection (artifacts : Option JStr) : JStr :=
  if optTruthy artifacts then jstr "<artifacts>\n" ++ artifacts.getD [] ++ jstr "\n</artifacts>\n"
  else []

/-- The "Priority 2: Active File" step of `assemblePrompt`, acting on the
accumulated `finalContext` and `remainingBudget`: include whole if it fits;
otherwise, when the header (the text before the first `\n\n`) is shorter
than the remaining budget, append the header plus the
`\n[Content truncated]\n</active_file>\n` marker and deduct
`header.length + 30`. -/
def stepActiveFile (activeFileStr : JStr) (st : JStr × Int) : JStr × Int :=
  if (activeFileStr.length : Int) ≤ st.2 then
    (st.1 ++ activeFileStr, st.2 - activeFileStr.length)
  else
    let header := splitHeadOn (jstr "\n\n") activeFileStr
    if (header.length : Int) < st.2 then
      (st.1 ++ header ++ jstr "\n[Content truncated]\n</active_file>\n",
        st.2 - ((header.length : Int) + 30))
    else st

/-- The shared shape of the "Priority 3/4/5" steps of `assemblePrompt`
(the source repeats this block for errors, git diff and artifacts, with
`closing` being `"...</active_errors>\n"` etc.): include whole if it fits;
otherwise, when more than 50 budget remains, append
`sectionStr.substring(0, remainingBudget - 20)` plus the closing marker and
zero the budget; otherwise skip. -/
def stepTail (sectionStr closing : JStr) (st : JStr × Int) : JStr × Int :=
  if (sectionStr.length : Int) ≤ st.2 then
    (st.1 ++ sectionStr, st.2 - sectionStr.length)
  else if st.2 > 50 then
    (st.1 ++ sectionStr.take (st.2 - 20).toNat ++ closing, 0)
  else st

/-- promptGenerator.ts `assemblePrompt`: build the four optional sections,
walk them in priority order against the remaining budget, and wrap the
accumulated context in the fixed instruction / mission-brief shell. -/
def assemblePrompt (diff : JStr) (errors symbols artifacts : Option JStr)
    (activeEditor : Option ActiveEditor) : JStr :=
  let st0 : JStr × Int := ([], initialBudget)
  let st2 := stepActiveFile (activeFileSection symbols activeEditor) st0
  let st3 := stepTail (activeErrorsSection errors) (jstr "...</active_errors>\n") st2
  let st4 := stepTail (gitDiffSection diff) (jstr "...</git_diff>\n") st3
  let st5 := stepTail (artifactsSection artifacts) (jstr "...</artifacts>\n") st4
  promptBaseStart ++ st5.1 ++ promptBaseEnd


theorem isPrefixOf_append_right (sep x r : JStr) (h : sep.length ≤ x.length) :
    sep.isPrefixOf (x ++ r) = sep.isPrefixOf x := by
  induction sep generalizing x with
  | nil => simp [List.isPrefixOf]
  | cons s ss ih =>
    cases x with
    | nil => simp at h
    | cons y ys =>
      show (s == y && ss.isPrefixOf (ys ++ r)) = (s == y && ss.isPrefixOf ys)
      rw [ih ys (by simpa using h)]

theorem isPrefixOf_self_append (sep t : JStr) : sep.isPrefixOf (sep ++ t) = true := by
  induction sep with
  | nil => simp [List.isPrefixOf]
  | cons s ss ih =>
    show (s == s && ss.isPrefixOf (ss ++ t)) = true
    simp [ih]

theorem splitHeadOn_cons (sep : JStr) (c : Char) (rest : JStr) :
    splitHeadOn sep (c :: rest)
      = if sep.isPrefixOf (c :: rest) then [] else c :: splitHeadOn sep rest := rfl

/-- No occurrence of `sep` starts strictly inside `a` when `a` is followed
by `sep`: a checkable side condition used to evaluate `splitHeadOn`. -/
def noEarlySep (sep : JStr) : JStr → Bool
  | [] => true
  | c :: rest => !(sep.isPrefixOf ((c :: rest) ++ sep)) && noEarlySep sep rest

theorem splitHeadOn_eval (sep a rest : JStr) (h : noEarlySep sep a = true) :
    splitHeadOn sep (a ++ (sep ++ rest)) = a := by
  induction a with
  | nil =>
    cases sep with
    | nil => cases rest <;> simp [splitHeadOn]
    | cons s ss =>
      rw [List.nil_append, List.cons_append, splitHeadOn_cons]
      rw [show s :: (ss ++ rest) = (s :: ss) ++ rest from rfl]
      rw [isPrefixOf_self_append]
      simp
  | cons c a' ih =>
    rw [noEarlySep] at h
    rw [Bool.and_eq_true] at h
    obtain ⟨h1, h2⟩ := h
    rw [List.cons_append, splitHeadOn_cons]
    have hre : c :: (a' ++ (sep ++ rest)) = ((c :: a') ++ sep) ++ rest := by simp
    rw [hre]
    rw [isPrefixOf_append_right sep ((c :: a') ++ sep) rest (by simp; omega)]
    rw [Bool.not_eq_true'] at h1
    rw [h1]
    simp only [Bool.false_eq_true, if_false]
    rw [ih h2]

/-- Potential used for the global length bound: accumulated content length
plus the non-negative part of the remaining budget. -/
def phiBudget (st : JStr × Int) : Int := (st.1.length : Int) + max st.2 0

theorem stepTail_phi (sectionStr closing : JStr) (st : JStr × Int)
    (hc : (closing.length : Int) ≤ 20) :
    phiBudget (stepTail sectionStr closing st) ≤ phiBudget st := by
  unfold stepTail phiBudget
  split
  · next h =>
    simp only [List.length_append]
    push_cast
    omega
  · next h =>
    split
    · next h2 =>
      simp only [List.length_append, List.length_take]
      push_cast
      have ht : ((st.2 - 20).toNat : Int) = st.2 - 20 := Int.toNat_of_nonneg (by omega)
      omega
    · omega

theorem stepActiveFile_phi (a : JStr) (r : Int) (hr : 0 ≤ r) :
    phiBudget (stepActiveFile a ([], r)) ≤ r + 35 := by
  have h36 : ((jstr "\n[Content truncated]\n</active_file>\n").length : Int) = 36 := by decide
  unfold stepActiveFile phiBudget
  dsimp only
  split
  · next h =>
    simp only [List.length_append, List.length_nil]
    push_cast
    omega
  · next h =>
    split
    · next h2 =>
      simp only [List.length_append, List.length_nil]
      push_cast
      rw [h36]
      omega
    · simp only [List.length_nil]
      omega

/-- C1 (amended): for every combination of inputs, the string returned by
`assemblePrompt` has length at most `PROMPT_MAX_LENGTH + 35` = 50,035.
The stated 50,000 maximum can be exceeded (by at most 35 characters): the
active-file truncation branch appends a 36-character closing marker while
deducting only `header.length + 30`, and only requires
`header.length < remainingBudget` rather than leaving room for the
marker. -/
theorem assemblePrompt_length_le (diff : JStr) (errors symbols artifacts : Option JStr)
    (activeEditor : Option ActiveEditor) :
    (assemblePrompt diff errors symbols artifacts activeEditor).length
      ≤ PROMPT_MAX_LENGTH + 35 := by
  unfold assemblePrompt
  dsimp only
  set st2 := stepActiveFile (activeFileSection symbols activeEditor) ([], initialBudget) with hst2
  set st3 := stepTail (activeErrorsSection errors) (jstr "...</active_errors>\n") st2 with hst3
  set st4 := stepTail (gitDiffSection diff) (jstr "...</git_diff>\n") st3 with hst4
  set st5 := stepTail (artifactsSection artifacts) (jstr "...</artifacts>\n") st4 with hst5
  have h0 : (0 : Int) ≤ initialBudget := by decide
  have p2 : phiBudget st2 ≤ initialBudget + 35 :=
    stepActiveFile_phi (activeFileSection symbols activeEditor) initialBudget h0
  have p3 : phiBudget st3 ≤ phiBudget st2 :=
    stepTail_phi (activeErrorsSection errors) (jstr "...</active_errors>\n") st2 (by decide)
  have p4 : phiBudget st4 ≤ phiBudget st3 :=
    stepTail_phi (gitDiffSection diff) (jstr "...</git_diff>\n") st3 (by decide)
  have p5 : phiBudget st5 ≤ phiBudget st4 :=
    stepTail_phi (artifactsSection artifacts) (jstr "...</artifacts>\n") st4 (by decide)
  have hcontent : (st5.1.length : Int) ≤ phiBudget st5 := by
    unfold phiBudget
    omega
  have hinit : initialBudget = 49774 := by decide
  have hbs : promptBaseStart.length = 146 := by decide
  have hbe : promptBaseEnd.length = 80 := by decide
  have hmax : PROMPT_MAX_LENGTH = 50000 := rfl
  simp only [List.length_append, hbs, hbe, hmax]
  omega

theorem stepTail_empty (c : JStr) (st : JStr × Int) : stepTail [] c st = st := by
  unfold stepTail
  split
  · simp
  · split
    · next h h2 =>
      simp at h
      exact absurd h2 (by omega)
    · rfl

theorem stepTail_zero_budget (s c : JStr) (x : JStr) : stepTail s c (x, 0) = (x, 0) := by
  unfold stepTail
  split
  · next h =>
    have hs : s = [] := by
      cases s with
      | nil => rfl
      | cons a l =>
        exfalso
        simp at h
        omega
    subst hs
    simp
  · split
    · next h h2 => exact absurd h2 (by omega)
    · rfl

theorem activeFileSection_f_shape (rep : JStr) :
    activeFileSection none (some ⟨jstr "f", 0, rep⟩)
      = jstr "<active_file>\nFile: f\nCursor Line: 1"
        ++ (jstr "\n\n" ++ (rep ++ jstr "\n</active_file>\n")) := by
  unfold activeFileSection
  dsimp only
  rw [show optTruthy none = false from rfl]
  rw [if_neg (by simp)]
  rw [show getFileName (jstr "f") = jstr "f" from by decide]
  rw [show natToJStr (0 + 1) = jstr "1" from by decide]
  have hcat : jstr "<active_file>\n" ++ jstr "File: " ++ jstr "f" ++ jstr "\nCursor Line: "
      ++ jstr "1" = jstr "<active_file>\nFile: f\nCursor Line: 1" := by decide
  rw [← hcat]
  simp [List.append_assoc]

theorem activeErrorsSection_some (e : JStr) (h : e.isEmpty = false) :
    activeErrorsSection (some e)
      = jstr "<active_errors>\n" ++ e ++ jstr "\n</active_errors>\n" := by
  unfold activeErrorsSection
  rw [if_pos (by simp [optTruthy, h])]
  simp

/-- The shape of the assembled prompt when the active file (filename `f`,
content length 49721, so section length 49775 > budget 49774) is truncated
to its header and the error text still fits the remaining budget: the
truncated active file is followed by the whole errors section. -/
theorem assemblePrompt_truncated_shape (rep erep : JStr)
    (hrep : rep.length = 49721) (herep0 : erep.isEmpty = false)
    (hfit : (erep.length : Int) + 34 ≤ 49708) :
    assemblePrompt [] (some erep) none none (some ⟨jstr "f", 0, rep⟩)
      = promptBaseStart
        ++ ((jstr "<active_file>\nFile: f\nCursor Line: 1"
            ++ jstr "\n[Content truncated]\n</active_file>\n")
            ++ (jstr "<active_errors>\n" ++ erep ++ jstr "\n</active_errors>\n"))
        ++ promptBaseEnd := by
  have hP : (jstr "<active_file>\nFile: f\nCursor Line: 1").length = 36 := by decide
  have hNN : (jstr "\n\n").length = 2 := by decide
  have hE : (jstr "\n</active_file>\n").length = 16 := by decide
  have hEL : (jstr "<active_errors>\n").length = 16 := by decide
  have hER : (jstr "\n</active_errors>\n").length = 18 := by decide
  have hinit : initialBudget = 49774 := by decide
  have hafs := activeFileSection_f_shape rep
  have hafslen : (activeFileSection none (some ⟨jstr "f", 0, rep⟩)).length = 49775 := by
    rw [hafs]
    simp only [List.length_append, hP, hNN, hE, hrep]
  have hst2 : stepActiveFile (activeFileSection none (some ⟨jstr "f", 0, rep⟩))
      ([], initialBudget)
      = (jstr "<active_file>\nFile: f\nCursor Line: 1"
          ++ jstr "\n[Content truncated]\n</active_file>\n", 49708) := by
    unfold stepActiveFile
    dsimp only
    rw [if_neg (by rw [hafslen, hinit]; decide)]
    rw [hafs]
    rw [splitHeadOn_eval _ _ _ (by decide)]
    rw [if_pos (by rw [hP, hinit]; decide)]
    rw [hP, hinit]
    simp
  have haes := activeErrorsSection_some erep herep0
  have haeslen : (activeErrorsSection (some erep)).length = erep.length + 34 := by
    rw [haes]
    simp only [List.length_append, hEL, hER]
    omega
  have hst3 : stepTail (activeErrorsSection (some erep)) (jstr "...</active_errors>\n")
      (jstr "<active_file>\nFile: f\nCursor Line: 1"
        ++ jstr "\n[Content truncated]\n</active_file>\n", 49708)
      = ((jstr "<active_file>\nFile: f\nCursor Line: 1"
          ++ jstr "\n[Content truncated]\n</active_file>\n")
          ++ (jstr "<active_errors>\n" ++ erep ++ jstr "\n</active_errors>\n"),
          (49708 : Int) - ((erep.length : Int) + 34)) := by
    unfold stepTail
    rw [if_pos (by rw [haeslen]; push_cast; omega)]
    rw [haeslen, haes]
    simp
  unfold assemblePrompt
  dsimp only
  rw [hst2, hst3]
  rw [show gitDiffSection [] = [] from rfl]
  rw [stepTail_empty]
  rw [show artifactsSection none = [] from rfl]
  rw [stepTail_empty]

/-- C1 counterexample: a concrete input on which `assemblePrompt` returns
50,006 characters, exceeding the claimed 50,000-character maximum: the
active-file section misses the budget by one character, its 36-character
header plus the 36-character truncation marker are appended while only
`36 + 30` is deducted, and an errors section filling the remaining budget
exactly then lands on top. -/
theorem assemblePrompt_exceeds_50000 :
    PROMPT_MAX_LENGTH
      < (assemblePrompt [] (some (List.replicate 49674 'e')) none none
          (some ⟨jstr "f", 0, List.replicate 49721 'x'⟩)).length := by
  have herep0 : (List.replicate 49674 'e').isEmpty = false := rfl
  have hlen1 : (List.replicate 49721 'x').length = 49721 := List.length_replicate 49721 'x'
  have hlen2 : (List.replicate 49674 'e').length = 49674 := List.length_replicate 49674 'e'
  have h := assemblePrompt_truncated_shape (List.replicate 49721 'x') (List.replicate 49674 'e')
    hlen1 herep0 (by rw [hlen2]; decide)
  rw [h]
  have hP : (jstr "<active_file>\nFile: f\nCursor Line: 1").length = 36 := by decide
  have hM : (jstr "\n[Content truncated]\n</active_file>\n").length = 36 := by decide
  have hEL : (jstr "<active_errors>\n").length = 16 := by decide
  have hER : (jstr "\n</active_errors>\n").length = 18 := by decide
  have hbs : promptBaseStart.length = 146 := by decide
  have hbe : promptBaseEnd.length = 80 := by decide
  simp only [List.length_append, hP, hM, hEL, hER, hbs, hbe, hlen2]
  decide


/-- One truncation step of the errors/git-diff/artifacts kind: when the
section does not fit and more than 50 budget remains, the accumulated
context gains `sectionStr.substring(0, remainingBudget - 20)` plus the
closing marker and the budget becomes zero. -/
theorem stepTail_truncates (s c : JStr) (st : JStr × Int)
    (h1 : (s.length : Int) > st.2) (h2 : st.2 > 50) :
    stepTail s c st = (st.1 ++ s.take (st.2 - 20).toNat ++ c, 0) := by
  unfold stepTail
  rw [if_neg (by omega), if_pos h2]

theorem gitDiffSection_nonempty (d : JStr) (h : d.isEmpty = false) :
    gitDiffSection d = jstr "<git_diff>\n" ++ d ++ jstr "\n</git_diff>\n" := by
  unfold gitDiffSection
  rw [h]
  rfl

/-- C2 (amended): the threshold/zero-budget rule holds for each of the
errors, git-diff and artifacts steps of `assemblePrompt`: whenever, at its
turn, one of these sections does not fit in the remaining budget but more
than 50 characters of budget remain, a truncated prefix of the section
(`substring(0, remaining - 20)`) plus its closing marker is included, the
budget is zeroed, and every lower-priority section downstream is skipped —
the assembled output is exactly the fixed shell around the context
accumulated so far plus the truncated section, mentioning none of the
lower-priority inputs.  (The active-file step itself does NOT follow this
rule: on truncation it appends its header plus a marker, deducts
`header.length + 30`, and leaves the budget positive, so sections below it
may still be included; see the counterexample.) -/
theorem assemblePrompt_tail_truncation (errors symbols artifacts : Option JStr)
    (activeEditor : Option ActiveEditor) (diff : JStr) :
    (((activeErrorsSection errors).length : Int)
          > (stepActiveFile (activeFileSection symbols activeEditor) ([], initialBudget)).2 →
      (stepActiveFile (activeFileSection symbols activeEditor) ([], initialBudget)).2 > 50 →
      assemblePrompt diff errors symbols artifacts activeEditor
        = promptBaseStart
          ++ ((stepActiveFile (activeFileSection symbols activeEditor) ([], initialBudget)).1
              ++ (activeErrorsSection errors).take
                (((stepActiveFile (activeFileSection symbols activeEditor)
                    ([], initialBudget)).2 - 20).toNat)
              ++ jstr "...</active_errors>\n")
          ++ promptBaseEnd) ∧
    (((gitDiffSection diff).length : Int)
          > (stepTail (activeErrorsSection errors) (jstr "...</active_errors>\n")
              (stepActiveFile (activeFileSection symbols activeEditor) ([], initialBudget))).2 →
      (stepTail (activeErrorsSection errors) (jstr "...</active_errors>\n")
          (stepActiveFile (activeFileSection symbols activeEditor) ([], initialBudget))).2 > 50 →
      assemblePrompt diff errors symbols artifacts activeEditor
        = promptBaseStart
          ++ ((stepTail (activeErrorsSection errors) (jstr "...</active_errors>\n")
                (stepActiveFile (activeFileSection symbols activeEditor) ([], initialBudget))).1
              ++ (gitDiffSection diff).take
                (((stepTail (activeErrorsSection errors) (jstr "...</active_errors>\n")
                    (stepActiveFile (activeFileSection symbols activeEditor)
                      ([], initialBudget))).2 - 20).toNat)
              ++ jstr "...</git_diff>\n")
          ++ promptBaseEnd) ∧
    (((artifactsSection artifacts).length : Int)
          > (stepTail (gitDiffSection diff) (jstr "...</git_diff>\n")
              (stepTail (activeErrorsSection errors) (jstr "...</active_errors>\n")
                (stepActiveFile (activeFileSection symbols activeEditor)
                  ([], initialBudget)))).2 →
      (stepTail (gitDiffSection diff) (jstr "...</git_diff>\n")
          (stepTail (activeErrorsSection errors) (jstr "...</active_errors>\n")
            (stepActiveFile (activeFileSection symbols activeEditor)
              ([], initialBudget)))).2 > 50 →
      assemblePrompt diff errors symbols artifacts activeEditor
        = promptBaseStart
          ++ ((stepTail (gitDiffSection diff) (jstr "...</git_diff>\n")
                (stepTail (activeErrorsSection errors) (jstr "...</active_errors>\n")
                  (stepActiveFile (activeFileSection symbols activeEditor)
                    ([], initialBudget)))).1
              ++ (artifactsSection artifacts).take
                (((stepTail (gitDiffSection diff) (jstr "...</git_diff>\n")
                    (stepTail (activeErrorsSection errors) (jstr "...</active_errors>\n")
                      (stepActiveFile (activeFileSection symbols activeEditor)
                        ([], initialBudget)))).2 - 20).toNat)
              ++ jstr "...</artifacts>\n")
          ++ promptBaseEnd) := by
  refine ⟨fun h1 h2 => ?_, fun h1 h2 => ?_, fun h1 h2 => ?_⟩
  · unfold assemblePrompt
    dsimp only
    rw [stepTail_truncates _ (jstr "...</active_errors>\n") _ h1 h2]
    rw [stepTail_zero_budget, stepTail_zero_budget]
  · unfold assemblePrompt
    dsimp only
    rw [stepTail_truncates _ (jstr "...</git_diff>\n") _ h1 h2]
    rw [stepTail_zero_budget]
  · unfold assemblePrompt
    dsimp only
    rw [stepTail_truncates _ (jstr "...</artifacts>\n") _ h1 h2]

/-- Witness for `assemblePrompt_tail_truncation`, exercising the git-diff
step: no active editor, no errors, an oversized diff, and an artifacts
input that ends up skipped. -/
theorem assemblePrompt_tail_truncation_witness :
    ((gitDiffSection (List.replicate 49800 'd')).length : Int)
        > (stepTail (activeErrorsSection none) (jstr "...</active_errors>\n")
            (stepActiveFile (activeFileSection none none) ([], initialBudget))).2 ∧
    (stepTail (activeErrorsSection none) (jstr "...</active_errors>\n")
        (stepActiveFile (activeFileSection none none) ([], initialBudget))).2 > 50 ∧
    assemblePrompt (List.replicate 49800 'd') none none (some (jstr "art")) none
      = promptBaseStart
        ++ ((stepTail (activeErrorsSection none) (jstr "...</active_errors>\n")
              (stepActiveFile (activeFileSection none none) ([], initialBudget))).1
            ++ (gitDiffSection (List.replicate 49800 'd')).take
              (((stepTail (activeErrorsSection none) (jstr "...</active_errors>\n")
                  (stepActiveFile (activeFileSection none none)
                    ([], initialBudget))).2 - 20).toNat)
            ++ jstr "...</git_diff>\n")
        ++ promptBaseEnd := by
  have hlen : (gitDiffSection (List.replicate 49800 'd')).length = 49824 := by
    rw [gitDiffSection_nonempty (List.replicate 49800 'd') rfl]
    simp only [List.length_append]
    rw [List.length_replicate]
    have h11 : (jstr "<git_diff>\n").length = 11 := by decide
    have h13 : (jstr "\n</git_diff>\n").length = 13 := by decide
    rw [h11, h13]
  have h1 : ((gitDiffSection (List.replicate 49800 'd')).length : Int)
      > (stepTail (activeErrorsSection none) (jstr "...</active_errors>\n")
          (stepActiveFile (activeFileSection none none) ([], initialBudget))).2 := by
    rw [hlen]
    decide
  have h2 : (stepTail (activeErrorsSection none) (jstr "...</active_errors>\n")
      (stepActiveFile (activeFileSection none none) ([], initialBudget))).2 > 50 := by
    decide
  exact ⟨h1, h2,
    (assemblePrompt_tail_truncation none none (some (jstr "art")) none
      (List.replicate 49800 'd')).2.1 h1 h2⟩

/-- The shape of the assembled prompt at the same truncated active file
but with no errors at all (used to show the output is not independent of
what follows a truncated active-file section). -/
theorem assemblePrompt_truncated_shape_noerrors (rep : JStr) (hrep : rep.length = 49721) :
    assemblePrompt [] none none none (some ⟨jstr "f", 0, rep⟩)
      = promptBaseStart
        ++ (jstr "<active_file>\nFile: f\nCursor Line: 1"
            ++ jstr "\n[Content truncated]\n</active_file>\n")
        ++ promptBaseEnd := by
  have hP : (jstr "<active_file>\nFile: f\nCursor Line: 1").length = 36 := by decide
  have hNN : (jstr "\n\n").length = 2 := by decide
  have hE : (jstr "\n</active_file>\n").length = 16 := by decide
  have hinit : initialBudget = 49774 := by decide
  have hafs := activeFileSection_f_shape rep
  have hafslen : (activeFileSection none (some ⟨jstr "f", 0, rep⟩)).length = 49775 := by
    rw [hafs]
    simp only [List.length_append, hP, hNN, hE, hrep]
  have hst2 : stepActiveFile (activeFileSection none (some ⟨jstr "f", 0, rep⟩))
      ([], initialBudget)
      = (jstr "<active_file>\nFile: f\nCursor Line: 1"
          ++ jstr "\n[Content truncated]\n</active_file>\n", 49708) := by
    unfold stepActiveFile
    dsimp only
    rw [if_neg (by rw [hafslen, hinit]; decide)]
    rw [hafs]
    rw [splitHeadOn_eval _ _ _ (by decide)]
    rw [if_pos (by rw [hP, hinit]; decide)]
    rw [hP, hinit]
    simp
  unfold assemblePrompt
  dsimp only
  rw [hst2]
  rw [show activeErrorsSection none = [] from rfl]
  rw [stepTail_empty]
  rw [show gitDiffSection [] = [] from rfl]
  rw [stepTail_empty]
  rw [show artifactsSection none = [] from rfl]
  rw [stepTail_empty]

/-- C2 counterexample: an input whose active-file section exceeds the
total budget, on which the assembled prompt contains the partially
truncated active file (header plus `[Content truncated]` marker — neither
intact nor absent) followed by a complete lower-priority errors section,
and on which the output still depends on the errors input — so the
remaining budget was not zeroed and lower-priority sections downstream of
the truncation were not skipped, contradicting both parts of the claim. -/
theorem assemblePrompt_truncated_then_errors :
    initialBudget
        < ((activeFileSection none (some ⟨jstr "f", 0, List.replicate 49721 'x'⟩)).length : Int) ∧
    assemblePrompt [] (some (List.replicate 100 'e')) none none
        (some ⟨jstr "f", 0, List.replicate 49721 'x'⟩)
      = promptBaseStart
        ++ ((jstr "<active_file>\nFile: f\nCursor Line: 1"
            ++ jstr "\n[Content truncated]\n</active_file>\n")
            ++ (jstr "<active_errors>\n" ++ List.replicate 100 'e'
              ++ jstr "\n</active_errors>\n"))
        ++ promptBaseEnd ∧
    assemblePrompt [] (some (List.replicate 100 'e')) none none
        (some ⟨jstr "f", 0, List.replicate 49721 'x'⟩)
      ≠ assemblePrompt [] none none none (some ⟨jstr "f", 0, List.replicate 49721 'x'⟩) := by
  have hrep : (List.replicate 49721 'x').length = 49721 := List.length_replicate 49721 'x'
  have herep0 : (List.replicate 100 'e').isEmpty = false := rfl
  have hlen2 : (List.replicate 100 'e').length = 100 := List.length_replicate 100 'e'
  have hsh := assemblePrompt_truncated_shape (List.replicate 49721 'x') (List.replicate 100 'e')
    hrep herep0 (by rw [hlen2]; decide)
  have hsh2 := assemblePrompt_truncated_shape_noerrors (List.replicate 49721 'x') hrep
  have hP : (jstr "<active_file>\nFile: f\nCursor Line: 1").length = 36 := by decide
  have hNN : (jstr "\n\n").length = 2 := by decide
  have hE : (jstr "\n</active_file>\n").length = 16 := by decide
  have hM : (jstr "\n[Content truncated]\n</active_file>\n").length = 36 := by decide
  have hEL : (jstr "<active_errors>\n").length = 16 := by decide
  have hER : (jstr "\n</active_errors>\n").length = 18 := by decide
  have hbs : promptBaseStart.length = 146 := by decide
  have hbe : promptBaseEnd.length = 80 := by decide
  refine ⟨?_, hsh, ?_⟩
  · rw [activeFileSection_f_shape]
    simp only [List.length_append, hP, hNN, hE, hrep]
    decide
  · intro heq
    have hlens := congrArg List.length heq
    rw [hsh, hsh2] at hlens
    simp only [List.length_append, hP, hM, hEL, hER, hbs, hbe, hlen2] at hlens
    omega

end Send2Jules
